import Mathlib

/-!
Verification of the pipe-py client (picosh/pipe-py).

The module `pipe_py/__init__.py` is a thin client over an SSH transport:
`PipeClient.pipe`, `PipeClient.pub` and `PipeClient.sub` build a remote
command argument list, join it with `shlex.join`, and spawn a remote
process whose stdin/stdout become the channel's write/read ends.

This file embeds, shallowly:
  * the argument-list construction of `pipe`, `pub`, `sub`;
  * `shlex.quote` / `shlex.join` and a POSIX word splitter (the rules of
    `shlex.split` with `posix=True`), to verify the quoting round-trip;
  * the session state machine (`open` / `close` / channel creation on a
    stored, possibly closed, connection handle);
  * the channel stream model (reader with buffer and end-of-file flag,
    writer with a flushed-bytes log, process handle with a closed flag) —
    the stream behaviour itself lives in the external transport library
    (asyncssh), not in this repository, so it is modelled from the spec's
    description of the transport;
  * a cooperative-interleaving model of three concurrent channel-creation
    calls racing on the lazily opened connection.
-/

/-! ## Argument-list construction (PipeClient.pipe / pub / sub) -/

/-- Arguments built by `PipeClient.pipe` (source lines 112-119):
`args = ["pipe"]`; `if topic: args.append(topic)`;
`if public: args.append("-p")`; `if replay: args.append("-r")`. -/
def PipeClient.pipeArgs (topic : String) (pub replay : Bool) : List String :=
  let args : List String := ["pipe"]
  let args := if topic ≠ "" then args ++ [topic] else args
  let args := if pub then args ++ ["-p"] else args
  let args := if replay then args ++ ["-r"] else args
  args

/-- Arguments built by `PipeClient.pub` (source lines 135-146):
`args = ["pub"]`; `if topic: args.append(topic)`;
`if not block: args.append("-b=false")`; `if empty: args.append("-e")`;
`if public: args.append("-p")`; `if timeout: args.append(f"-t={timeout}")`. -/
def PipeClient.pubArgs (topic : String) (block e pub : Bool) (tmo : String) :
    List String :=
  let args : List String := ["pub"]
  let args := if topic ≠ "" then args ++ [topic] else args
  let args := if !block then args ++ ["-b=false"] else args
  let args := if e then args ++ ["-e"] else args
  let args := if pub then args ++ ["-p"] else args
  let args := if tmo ≠ "" then args ++ ["-t=" ++ tmo] else args
  args

/-- Arguments built by `PipeClient.sub` (source lines 155-160):
`args = ["sub", topic]`; `if keep: args.append("-k")`;
`if public: args.append("-p")`. -/
def PipeClient.subArgs (topic : String) (keep pub : Bool) : List String :=
  let args : List String := ["sub", topic]
  let args := if keep then args ++ ["-k"] else args
  let args := if pub then args ++ ["-p"] else args
  args

/-! ## shlex: quoting, joining and POSIX word splitting

`shlex.join(args)` is `" ".join(shlex.quote(a) for a in args)`.
`shlex.quote(s)` returns `"''"` for the empty string, `s` unchanged when
every character matches the safe class (ASCII alphanumerics, underscore,
at sign, percent, plus, equals, colon, comma, dot, slash, hyphen),
and otherwise wraps `s` in single quotes after replacing every embedded
single quote by the five characters of a quote-break.

The splitter below is the state machine of `shlex.split` in POSIX mode:
whitespace separates words; single quotes protect everything up to the
next single quote; double quotes protect up to the next double quote,
inside which a backslash escapes only a double quote or a backslash;
outside quotes a backslash escapes the next character.  An unterminated
quote or trailing escape is an error (`none`). -/

/-- Whitespace characters of the shlex lexer. -/
def Shlex.isWs (c : Char) : Bool := c = ' ' || c = '\t' || c = '\r' || c = '\n'

/-- Characters `shlex.quote` leaves unquoted: ASCII alphanumerics and
underscore plus at sign, percent, plus, equals, colon, comma, dot, slash
and hyphen. -/
def Shlex.safeChar (c : Char) : Bool :=
  c.isAlphanum || c = '_' || c = '@' || c = '%' || c = '+' || c = '=' ||
    c = ':' || c = ',' || c = '.' || c = '/' || c = '-'

/-- Body of a single-quoted string: each embedded single quote is written
as the five-character sequence quote, double-quote, quote, double-quote,
quote (close the single-quoted span, emit a double-quoted quote, reopen). -/
def Shlex.quoteBody : List Char → List Char
  | [] => []
  | c :: rest =>
    (if c = '\'' then ['\'', '"', '\'', '"', '\''] else [c]) ++ Shlex.quoteBody rest

/-- `shlex.quote` on a string given as its character list. -/
def Shlex.quote (s : List Char) : List Char :=
  if s = [] then ['\'', '\'']
  else if s.all Shlex.safeChar then s
  else '\'' :: (Shlex.quoteBody s ++ ['\''])

/-- `shlex.join` on character lists: quoted arguments separated by spaces. -/
def Shlex.joinCore : List (List Char) → List Char
  | [] => []
  | [a] => Shlex.quote a
  | a :: rest => Shlex.quote a ++ ' ' :: Shlex.joinCore rest

/-- Lexer mode of the POSIX splitter: outside quotes, inside single
quotes, inside double quotes, after an escape, after an escape inside
double quotes. -/
inductive Shlex.Mode
  | normal | singleQ | doubleQ | esc | escDouble
deriving DecidableEq

/-- Splitter state: the token being accumulated (`none` when no token has
been started — quotes start an empty token), the lexer mode, and the
completed words. -/
structure Shlex.SplitState where
  cur : Option (List Char)
  mode : Shlex.Mode
  out : List (List Char)
deriving DecidableEq

/-- Append a character to the token in progress, starting one if needed. -/
def Shlex.push (cur : Option (List Char)) (c : Char) : Option (List Char) :=
  some (cur.getD [] ++ [c])

/-- One character of POSIX word splitting. -/
def Shlex.step (st : Shlex.SplitState) (c : Char) : Shlex.SplitState :=
  match st.mode with
  | .normal =>
    if Shlex.isWs c then
      match st.cur with
      | none => st
      | some t => ⟨none, .normal, st.out ++ [t]⟩
    else if c = '\'' then ⟨some (st.cur.getD []), .singleQ, st.out⟩
    else if c = '"' then ⟨some (st.cur.getD []), .doubleQ, st.out⟩
    else if c = '\\' then ⟨some (st.cur.getD []), .esc, st.out⟩
    else ⟨Shlex.push st.cur c, .normal, st.out⟩
  | .singleQ =>
    if c = '\'' then ⟨st.cur, .normal, st.out⟩
    else ⟨Shlex.push st.cur c, .singleQ, st.out⟩
  | .doubleQ =>
    if c = '"' then ⟨st.cur, .normal, st.out⟩
    else if c = '\\' then ⟨st.cur, .escDouble, st.out⟩
    else ⟨Shlex.push st.cur c, .doubleQ, st.out⟩
  | .esc => ⟨Shlex.push st.cur c, .normal, st.out⟩
  | .escDouble =>
    if c = '"' || c = '\\' then ⟨Shlex.push st.cur c, .doubleQ, st.out⟩
    else ⟨Shlex.push (Shlex.push st.cur '\\') c, .doubleQ, st.out⟩

/-- Emit the words; an open quote or pending escape at end of input is an
error, as in `shlex.split`. -/
def Shlex.finalize (st : Shlex.SplitState) : Option (List (List Char)) :=
  match st.mode with
  | .normal => some (st.out ++ st.cur.toList)
  | _ => none

/-- Run the splitter from a given state. -/
def Shlex.splitFrom (st : Shlex.SplitState) (s : List Char) :
    Option (List (List Char)) :=
  Shlex.finalize (s.foldl Shlex.step st)

/-- `shlex.split` in POSIX mode on a character list. -/
def Shlex.split (s : List Char) : Option (List (List Char)) :=
  Shlex.splitFrom ⟨none, Shlex.Mode.normal, []⟩ s

/-- `shlex.join` on the argument lists the client builds. -/
def shlexJoin (args : List String) : List Char :=
  Shlex.joinCore (args.map String.data)

/-- Shell word splitting back to strings. -/
def shlexSplit (s : List Char) : Option (List String) :=
  (Shlex.split s).map (List.map String.mk)

/-! ## Transport stream and process model

The channel classes (`PipeBase`, `Sub`, `Pub`, `Pipe`) delegate every
operation to the asyncssh stream objects; asyncssh is not part of this
repository.  The stream state below is modelled from the spec's contract
for the transport (spec sections 4.3-4.5): a reader holds the delivered,
not-yet-read bytes and an end-of-stream flag; `read` suspends until data
or end-of-stream is available, returns up to `size` bytes, and returns an
empty result at end-of-stream; `at_eof` is true once end-of-stream has
been received and no buffered data remains; a writer records the flushed
bytes; closing a process closes the process and both stream ends and
reports no error. -/

/-- Modelled from the spec: the transport's output stream (asyncssh
`SSHReader`), missing from src/ — buffered undelivered bytes plus whether
end-of-stream has been received. -/
structure SSHReader where
  buf : List UInt8
  eofReceived : Bool
deriving DecidableEq

/-- Modelled from the spec: `at_eof` is true once end-of-stream has been
received on the stream and all delivered bytes have been consumed. -/
def SSHReader.at_eof (r : SSHReader) : Bool := r.eofReceived && r.buf.isEmpty

/-- Modelled from the spec: `read size` returns up to `size` buffered
bytes, an empty result at end-of-stream, and otherwise suspends (`none`:
the call does not return yet). -/
def SSHReader.readBytes (r : SSHReader) (size : Nat) :
    Option (List UInt8 × SSHReader) :=
  if r.buf.isEmpty then
    if r.eofReceived then some ([], r) else none
  else some (r.buf.take size, { r with buf := r.buf.drop size })

/-- Modelled from the spec: the transport's input stream (asyncssh
`SSHWriter`), missing from src/ — the bytes flushed to the transport and
whether the stream is closing. -/
structure SSHWriter where
  sent : List UInt8
  closing : Bool
deriving DecidableEq

/-- A remote command process handle with its two stream ends. -/
structure SSHClientProcess where
  stdin : SSHWriter
  stdout : SSHReader
  procClosed : Bool
deriving DecidableEq

/-- Stream-level failures of the transport (spec section 7). -/
inductive StreamError
  | connectionLost
deriving DecidableEq

/-- Modelled from the spec: closing the remote process closes the process
and both stream ends (section 4.5) and reports no error. -/
def SSHClientProcess.closeProc (p : SSHClientProcess) :
    SSHClientProcess × Option StreamError :=
  ({ stdin := { p.stdin with closing := true },
     stdout := { p.stdout with eofReceived := true },
     procClosed := true }, none)

/-- `PipeBase.close` (source lines 21-23): `await self._proc.close()` —
pure delegation to the process close. -/
def PipeBase.close (p : SSHClientProcess) : SSHClientProcess × Option StreamError :=
  p.closeProc

/-- `Sub.read_done` (source lines 29-31): `self._output.at_eof()`. -/
def Sub.read_done (p : SSHClientProcess) : Bool := p.stdout.at_eof

/-- `Sub.read` (source lines 33-35): `await self._output.read(size)`,
default size 32 KiB. -/
def Sub.read (p : SSHClientProcess) (size : Nat := 32 * 1024) :
    Option (List UInt8 × SSHClientProcess) :=
  match p.stdout.readBytes size with
  | some (d, r) => some (d, { p with stdout := r })
  | none => none

/-- `Pub.write_done` (source lines 40-42): `self._input.is_closing()`. -/
def Pub.write_done (p : SSHClientProcess) : Bool := p.stdin.closing

/-- `Pub.write` (source lines 45-48): `self._input.write(data)` then
`await self._input.drain()` — the data itself is passed through unchanged
and, once drained, has been flushed to the transport. -/
def Pub.write (p : SSHClientProcess) (data : List UInt8) : SSHClientProcess :=
  { p with stdin := { p.stdin with sent := p.stdin.sent ++ data } }

/-! ## Reader trace model for end-of-stream observation

Events on one channel's output stream: the transport delivers bytes, the
transport delivers end-of-stream, or the caller performs a read (a read
that would suspend observes nothing). -/

/-- An event on the output stream of a readable channel. -/
inductive RdEvent
  | feed (data : List UInt8)
  | feedEof
  | doRead (size : Nat)
deriving DecidableEq

/-- Apply one stream event; read results are logged in arrival order. -/
def applyRdEvent : SSHReader × List (List UInt8) → RdEvent → SSHReader × List (List UInt8)
  | (r, outs), .feed d => ({ r with buf := r.buf ++ d }, outs)
  | (r, outs), .feedEof => ({ r with eofReceived := true }, outs)
  | (r, outs), .doRead n =>
    match r.readBytes n with
    | some (d, r2) => (r2, outs ++ [d])
    | none => (r, outs)

/-- Run a stream trace from a fresh reader, collecting read results. -/
def runRdTrace (es : List RdEvent) : SSHReader × List (List UInt8) :=
  es.foldl applyRdEvent (⟨[], false⟩, [])

/-! ## Session state machine (PipeClient) -/

/-- An SSH connection handle; the transport marks it closed on `close()`.
`asyncssh.connect` returns an open one. -/
structure SSHClientConnection where
  connClosed : Bool
deriving DecidableEq

/-- Errors a channel-creation call can surface.  `connectionClosed` is the
transport's failure when a process is created on a closed connection;
`sessionClosed` is the error type the spec names — the source defines no
such type and no code path produces it. -/
inductive ChannelError
  | connectionClosed
  | sessionClosed
deriving DecidableEq

/-- The `PipeClient` instance state (source lines 57-84): connection
parameters plus the lazily populated connection handle. -/
structure PipeClientState where
  remote_host : String
  remote_port : Option Nat
  key_location : Option String
  key_passphrase : Option String
  remote_user : String
  client : Option SSHClientConnection
deriving DecidableEq

/-- `PipeClient.open` (source lines 86-97), successful case:
`self.client = await asyncssh.connect(...)` stores a fresh open
connection. -/
def PipeClient.openSession (st : PipeClientState) : PipeClientState :=
  { st with client := some ⟨false⟩ }

/-- `PipeClient.close` (source lines 99-103):
`if self.client is None: return` else `self.client.close()` — the
connection object is closed but the handle stays stored; no field is
reset. -/
def PipeClient.close (st : PipeClientState) : PipeClientState :=
  match st.client with
  | none => st
  | some c => { st with client := some { c with connClosed := true } }

/-- Modelled from the spec: `create_process` on the session's connection
(asyncssh), missing from src/ — on a closed connection the transport
fails with its connection-closed error, otherwise it spawns a process
running the given command line (the process is identified here by that
command line). -/
def SSHClientConnection.create_process (c : SSHClientConnection)
    (cmd : List Char) : Except ChannelError (List Char) :=
  if c.connClosed then .error .connectionClosed else .ok cmd

/-- `PipeClient.pipe`, session part (source lines 105-121):
`if self.client is None: await self.open()`, then
`self.client.create_process(shlex.join(args))`.  Returns the state after
the call and the creation result. -/
def PipeClient.pipeOp (st : PipeClientState) (topic : String) (pub replay : Bool) :
    PipeClientState × Except ChannelError (List Char) :=
  match st.client with
  | none =>
    (PipeClient.openSession st,
     SSHClientConnection.create_process ⟨false⟩
       (shlexJoin (PipeClient.pipeArgs topic pub replay)))
  | some c => (st, c.create_process (shlexJoin (PipeClient.pipeArgs topic pub replay)))

/-- `PipeClient.pub`, session part (source lines 123-148). -/
def PipeClient.pubOp (st : PipeClientState) (topic : String) (block e pub : Bool)
    (tmo : String) : PipeClientState × Except ChannelError (List Char) :=
  match st.client with
  | none =>
    (PipeClient.openSession st,
     SSHClientConnection.create_process ⟨false⟩
       (shlexJoin (PipeClient.pubArgs topic block e pub tmo)))
  | some c => (st, c.create_process (shlexJoin (PipeClient.pubArgs topic block e pub tmo)))

/-- `PipeClient.sub`, session part (source lines 150-162). -/
def PipeClient.subOp (st : PipeClientState) (topic : String) (keep pub : Bool) :
    PipeClientState × Except ChannelError (List Char) :=
  match st.client with
  | none =>
    (PipeClient.openSession st,
     SSHClientConnection.create_process ⟨false⟩
       (shlexJoin (PipeClient.subArgs topic keep pub)))
  | some c => (st, c.create_process (shlexJoin (PipeClient.subArgs topic keep pub)))

/-- A concrete client state as built by the example driver (main.py):
all parameters set, connection already opened. -/
def examplePipeClientState : PipeClientState :=
  ⟨"pipe.pico.sh", some 22, some "keyfile", none, "", some ⟨false⟩⟩

/-! ## Cooperative interleaving of concurrent channel creation

Each of the three channel-creating coroutines runs
`if self.client is None: await self.open()` and then creates its process.
`PipeClient.open` suspends at `await asyncssh.connect(...)` and assigns
`self.client` only after the connect resolves, so under cooperative
scheduling another task can run its own null check while the first
connect is still pending.  A task is: at `.start` before its null check;
at `.connecting` suspended inside `asyncssh.connect` (the attempt is
counted when the connect is initiated); `.done` once it proceeds to
`create_process`. -/

/-- Phase of one channel-creating task. -/
inductive TPhase
  | start | connecting | done
deriving DecidableEq

/-- One cooperative step of a task: the null check (starting a connect
when the handle is null), or resuming from a finished connect (storing
the fresh connection). -/
def TPhase.taskStep (ph : TPhase) (client : Option SSHClientConnection)
    (attempts : Nat) : Option SSHClientConnection × Nat × TPhase :=
  match ph with
  | .start =>
    match client with
    | none => (client, attempts + 1, .connecting)
    | some _ => (client, attempts, .done)
  | .connecting => (some ⟨false⟩, attempts, .done)
  | .done => (client, attempts, .done)

/-- Shared session handle, count of connection attempts initiated, and
the three task phases (the `pipe`, `sub` and `pub` calls of main.py). -/
structure RaceState where
  client : Option SSHClientConnection
  attempts : Nat
  t0 : TPhase
  t1 : TPhase
  t2 : TPhase
deriving DecidableEq

/-- Schedule task `i` for one step. -/
def RaceState.sched (st : RaceState) (i : Nat) : RaceState :=
  match i with
  | 0 =>
    let r := st.t0.taskStep st.client st.attempts
    { st with client := r.1, attempts := r.2.1, t0 := r.2.2 }
  | 1 =>
    let r := st.t1.taskStep st.client st.attempts
    { st with client := r.1, attempts := r.2.1, t1 := r.2.2 }
  | _ =>
    let r := st.t2.taskStep st.client st.attempts
    { st with client := r.1, attempts := r.2.1, t2 := r.2.2 }

/-- Run a schedule from an unopened session with all tasks at their null
check. -/
def raceRun (plan : List Nat) : RaceState :=
  plan.foldl RaceState.sched ⟨none, 0, .start, .start, .start⟩

/-! ## Helper lemmas: the shlex quoting round-trip -/

/-- A safe character is not whitespace and not a quote, double quote or
backslash. -/
theorem Shlex.safe_not_special {c : Char} (h : Shlex.safeChar c = true) :
    Shlex.isWs c = false ∧ c ≠ '\'' ∧ c ≠ '"' ∧ c ≠ '\\' := by
  have hsp : Shlex.isWs c = true → False := by
    intro hw
    have hc : ((c = ' ' ∨ c = '\t') ∨ c = '\r') ∨ c = '\n' := by
      simpa [Shlex.isWs] using hw
    rcases hc with ((rfl | rfl) | rfl) | rfl <;> exact absurd h (by decide)
  refine ⟨?_, ?_, ?_, ?_⟩
  · cases hw : Shlex.isWs c
    · rfl
    · exact (hsp hw).elim
  · rintro rfl; exact absurd h (by decide)
  · rintro rfl; exact absurd h (by decide)
  · rintro rfl; exact absurd h (by decide)

/-- Splitting a run of safe characters extends the token in progress. -/
theorem Shlex.steps_safe (s : List Char) : ∀ (t : List Char) (out : List (List Char)),
    s.all Shlex.safeChar = true →
    s.foldl Shlex.step ⟨some t, Shlex.Mode.normal, out⟩ =
      ⟨some (t ++ s), Shlex.Mode.normal, out⟩ := by
  induction s with
  | nil => intro t out _; simp
  | cons c rest ih =>
    intro t out hall
    rw [List.all_cons, Bool.and_eq_true] at hall
    obtain ⟨hw, h1, h2, h3⟩ := Shlex.safe_not_special hall.1
    have hstep : Shlex.step ⟨some t, Shlex.Mode.normal, out⟩ c =
        ⟨some (t ++ [c]), Shlex.Mode.normal, out⟩ := by
      simp [Shlex.step, hw, h1, h2, h3, Shlex.push]
    rw [List.foldl_cons, hstep, ih (t ++ [c]) out hall.2]
    simp

/-- Splitting the quoted body of a string, inside single quotes, extends
the token by exactly that string. -/
theorem Shlex.steps_quoteBody (s : List Char) :
    ∀ (t : List Char) (out : List (List Char)),
    (Shlex.quoteBody s).foldl Shlex.step ⟨some t, Shlex.Mode.singleQ, out⟩ =
      ⟨some (t ++ s), Shlex.Mode.singleQ, out⟩ := by
  induction s with
  | nil => intro t out; simp [Shlex.quoteBody]
  | cons c rest ih =>
    intro t out
    by_cases hc : c = '\''
    · subst hc
      have hq : Shlex.quoteBody ('\'' :: rest) =
          '\'' :: '"' :: '\'' :: '"' :: '\'' :: Shlex.quoteBody rest := by
        simp [Shlex.quoteBody]
      rw [hq]
      simp only [List.foldl_cons]
      have e1 : Shlex.step ⟨some t, Shlex.Mode.singleQ, out⟩ '\'' =
          ⟨some t, Shlex.Mode.normal, out⟩ := rfl
      have e2 : Shlex.step ⟨some t, Shlex.Mode.normal, out⟩ '"' =
          ⟨some t, Shlex.Mode.doubleQ, out⟩ := rfl
      have e3 : Shlex.step ⟨some t, Shlex.Mode.doubleQ, out⟩ '\'' =
          ⟨some (t ++ ['\'']), Shlex.Mode.doubleQ, out⟩ := rfl
      have e4 : Shlex.step ⟨some (t ++ ['\'']), Shlex.Mode.doubleQ, out⟩ '"' =
          ⟨some (t ++ ['\'']), Shlex.Mode.normal, out⟩ := rfl
      have e5 : Shlex.step ⟨some (t ++ ['\'']), Shlex.Mode.normal, out⟩ '\'' =
          ⟨some (t ++ ['\'']), Shlex.Mode.singleQ, out⟩ := rfl
      rw [e1, e2, e3, e4, e5, ih (t ++ ['\'']) out]
      simp
    · have hq : Shlex.quoteBody (c :: rest) = c :: Shlex.quoteBody rest := by
        simp [Shlex.quoteBody, hc]
      rw [hq, List.foldl_cons]
      have e : Shlex.step ⟨some t, Shlex.Mode.singleQ, out⟩ c =
          ⟨some (t ++ [c]), Shlex.Mode.singleQ, out⟩ := by
        simp [Shlex.step, hc, Shlex.push]
      rw [e, ih (t ++ [c]) out]
      simp

/-- Splitting the quoted form of any string, outside a token, produces
exactly that string as the token in progress. -/
theorem Shlex.steps_quote (s : List Char) (out : List (List Char)) :
    (Shlex.quote s).foldl Shlex.step ⟨none, Shlex.Mode.normal, out⟩ =
      ⟨some s, Shlex.Mode.normal, out⟩ := by
  unfold Shlex.quote
  by_cases hnil : s = []
  · subst hnil
    simp only [if_pos rfl]
    rfl
  · rw [if_neg hnil]
    by_cases hsafe : s.all Shlex.safeChar = true
    · rw [if_pos hsafe]
      cases s with
      | nil => exact absurd rfl hnil
      | cons c rest =>
        rw [List.all_cons, Bool.and_eq_true] at hsafe
        obtain ⟨hw, h1, h2, h3⟩ := Shlex.safe_not_special hsafe.1
        have e : Shlex.step ⟨none, Shlex.Mode.normal, out⟩ c =
            ⟨some [c], Shlex.Mode.normal, out⟩ := by
          simp [Shlex.step, hw, h1, h2, h3, Shlex.push]
        rw [List.foldl_cons, e, Shlex.steps_safe rest [c] out hsafe.2]
        simp
    · rw [if_neg hsafe]
      have e0 : Shlex.step ⟨none, Shlex.Mode.normal, out⟩ '\'' =
          ⟨some [], Shlex.Mode.singleQ, out⟩ := rfl
      rw [List.foldl_cons, e0, List.foldl_append, Shlex.steps_quoteBody s [] out]
      rfl

/-- Splitting a joined argument list appends exactly those arguments to
the words already emitted. -/
theorem Shlex.splitFrom_joinCore (args : List (List Char)) :
    ∀ (out : List (List Char)),
    Shlex.splitFrom ⟨none, Shlex.Mode.normal, out⟩ (Shlex.joinCore args) =
      some (out ++ args) := by
  induction args with
  | nil => intro out; simp [Shlex.joinCore, Shlex.splitFrom, Shlex.finalize]
  | cons a rest ih =>
    intro out
    cases rest with
    | nil =>
      show Shlex.splitFrom _ (Shlex.quote a) = _
      unfold Shlex.splitFrom
      rw [Shlex.steps_quote a out]
      simp [Shlex.finalize]
    | cons b t =>
      have hj : Shlex.joinCore (a :: b :: t) =
          Shlex.quote a ++ ' ' :: Shlex.joinCore (b :: t) := rfl
      rw [hj]
      unfold Shlex.splitFrom
      rw [List.foldl_append, Shlex.steps_quote a out, List.foldl_cons]
      have hsp : Shlex.step ⟨some a, Shlex.Mode.normal, out⟩ ' ' =
          ⟨none, Shlex.Mode.normal, out ++ [a]⟩ := rfl
      rw [hsp]
      have hrec := ih (out ++ [a])
      unfold Shlex.splitFrom at hrec
      rw [hrec, List.append_assoc]
      rfl

/-- POSIX word splitting inverts `shlex.join` on every argument list. -/
theorem Shlex.split_joinCore (args : List (List Char)) :
    Shlex.split (Shlex.joinCore args) = some args := by
  simpa using Shlex.splitFrom_joinCore args []

/-! ## Claim theorems -/

/-- Claim C1: for every input (topic, public, replay), `pipe` builds its
argument list as `["pipe"]`, then the topic iff it is non-empty, then
`"-p"` iff public, then `"-r"` iff replay, in exactly that order. -/
theorem pipeArgs_build_order (topic : String) (pub replay : Bool) :
    PipeClient.pipeArgs topic pub replay =
      ["pipe"] ++ (if topic = "" then [] else [topic])
        ++ (if pub then ["-p"] else [])
        ++ (if replay then ["-r"] else []) := by
  unfold PipeClient.pipeArgs
  by_cases ht : topic = "" <;> cases pub <;> cases replay <;> simp [ht]

/-- Claim C2: for every input (topic, block, empty, public, timeout), `pub`
builds its argument list as `["pub"]`, then the topic iff non-empty, then
`"-b=false"` iff block is false, then `"-e"` iff empty, then `"-p"` iff
public, then `"-t=<timeout>"` iff timeout non-empty, in that order; in
particular `pub(topic="t", block=false, timeout="5s")` yields
`["pub", "t", "-b=false", "-t=5s"]`. -/
theorem pubArgs_build_order :
    (∀ (topic : String) (block e pub : Bool) (tmo : String),
      PipeClient.pubArgs topic block e pub tmo =
        ["pub"] ++ (if topic = "" then [] else [topic])
          ++ (if block then [] else ["-b=false"])
          ++ (if e then ["-e"] else [])
          ++ (if pub then ["-p"] else [])
          ++ (if tmo = "" then [] else ["-t=" ++ tmo]))
    ∧ PipeClient.pubArgs "t" false false false "5s" =
        ["pub", "t", "-b=false", "-t=5s"] := by
  constructor
  · intro topic block e pub tmo
    unfold PipeClient.pubArgs
    by_cases ht : topic = "" <;> by_cases hm : tmo = "" <;>
      cases block <;> cases e <;> cases pub <;> simp [ht, hm]
  · rfl

/-- Claim C3: for every input (topic, keep, public), `sub` builds its
argument list as `["sub", topic]` — the topic always appended even when
empty — then `"-k"` iff keep, then `"-p"` iff public; in particular
`sub(topic="", keep=true)` yields `["sub", "", "-k"]`. -/
theorem subArgs_build_order :
    (∀ (topic : String) (keep pub : Bool),
      PipeClient.subArgs topic keep pub =
        ["sub", topic] ++ (if keep then ["-k"] else [])
          ++ (if pub then ["-p"] else []))
    ∧ PipeClient.subArgs "" true false = ["sub", "", "-k"] := by
  constructor
  · intro topic keep pub
    unfold PipeClient.subArgs
    cases keep <;> cases pub <;> simp
  · rfl

/-- Claim C4: for every argument list produced by `pipe`, `pub` or `sub`
— for every topic and timeout string, whitespace and shell
metacharacters included — joining the list with `shlex.join` and then
splitting the command line with POSIX shell word-splitting rules yields
back exactly the original argument list. -/
theorem shlex_join_split_roundtrip :
    (∀ (topic : String) (pub replay : Bool),
      shlexSplit (shlexJoin (PipeClient.pipeArgs topic pub replay)) =
        some (PipeClient.pipeArgs topic pub replay)) ∧
    (∀ (topic : String) (block e pub : Bool) (tmo : String),
      shlexSplit (shlexJoin (PipeClient.pubArgs topic block e pub tmo)) =
        some (PipeClient.pubArgs topic block e pub tmo)) ∧
    (∀ (topic : String) (keep pub : Bool),
      shlexSplit (shlexJoin (PipeClient.subArgs topic keep pub)) =
        some (PipeClient.subArgs topic keep pub)) := by
  have key : ∀ (args : List String), shlexSplit (shlexJoin args) = some args := by
    intro args
    unfold shlexSplit shlexJoin
    rw [Shlex.split_joinCore]
    have hid : ∀ (l : List String), List.map String.mk (List.map String.data l) = l := by
      intro l
      induction l with
      | nil => rfl
      | cons s t ih => simp only [List.map_cons, ih]
    simp [hid]
  exact ⟨fun _ _ _ => key _, fun _ _ _ _ _ => key _, fun _ _ _ => key _⟩

/-- Claim C5 counterexample: on a session whose connection was opened and
then closed, a subsequent `pipe` call fails with the transport's
connection-closed error, not with a `SessionClosedError` — the source
defines no such error type and no code path produces one. -/
theorem pipe_after_close_error_kind :
    (PipeClient.pipeOp (PipeClient.close examplePipeClientState) "topic" false false).2 =
      Except.error ChannelError.connectionClosed ∧
    (PipeClient.pipeOp (PipeClient.close examplePipeClientState) "topic" false false).2 ≠
      Except.error ChannelError.sessionClosed := by
  have he : (PipeClient.pipeOp (PipeClient.close examplePipeClientState)
      "topic" false false).2 = Except.error ChannelError.connectionClosed := rfl
  refine ⟨he, ?_⟩
  rw [he]
  simp

/-- Claim C5 (amended): for every session on which `close()` has been
called after the connection existed, every subsequently attempted
channel-creation call (`pipe`, `pub` or `sub`) fails immediately and
without retry, with the transport's connection-closed error: `close()`
keeps the handle stored, so the call skips the lazy open and surfaces the
transport's refusal to create a process on the closed connection. -/
theorem channel_create_after_close_transport_error (st : PipeClientState)
    (c : SSHClientConnection) (h : st.client = some c) :
    (∀ (topic : String) (pub replay : Bool),
      (PipeClient.pipeOp (PipeClient.close st) topic pub replay).2 =
        Except.error ChannelError.connectionClosed) ∧
    (∀ (topic : String) (block e pub : Bool) (tmo : String),
      (PipeClient.pubOp (PipeClient.close st) topic block e pub tmo).2 =
        Except.error ChannelError.connectionClosed) ∧
    (∀ (topic : String) (keep pub : Bool),
      (PipeClient.subOp (PipeClient.close st) topic keep pub).2 =
        Except.error ChannelError.connectionClosed) := by
  have hc : (PipeClient.close st).client = some ⟨true⟩ := by
    simp [PipeClient.close, h]
  refine ⟨fun topic pub replay => ?_, fun topic block e pub tmo => ?_,
    fun topic keep pub => ?_⟩ <;>
    simp [PipeClient.pipeOp, PipeClient.pubOp, PipeClient.subOp, hc,
      SSHClientConnection.create_process]

/-- Claim C5 witness: the amended behaviour at a concrete closed session. -/
theorem channel_create_after_close_transport_error_witness :
    (PipeClient.pipeOp (PipeClient.close examplePipeClientState) "t" true false).2 =
      Except.error ChannelError.connectionClosed :=
  (channel_create_after_close_transport_error examplePipeClientState ⟨false⟩ rfl).1
    "t" true false

/-- Claim C6: under cooperative scheduling, when the `pipe`, `sub` and
`pub` channel-creation calls of main.py each reach their
`if self.client is None` check before any connect resolves — each
`await asyncssh.connect` is a suspension point — all three observe a null
handle and all three initiate a connection attempt: the run makes three
attempts, not the single attempt the claim states. -/
theorem concurrent_open_three_attempts :
    (raceRun [0, 1, 2, 0, 1, 2]).attempts = 3 ∧
    ¬ (raceRun [0, 1, 2, 0, 1, 2]).attempts = 1 := by
  constructor
  · rfl
  · decide

/-- Claim C7: closing a channel a second time after a completed close is a
no-op and produces no error — `PipeBase.close` delegates to the process
close, which reports no error and leaves an already-closed process in the
same state. -/
theorem channel_close_idempotent (p : SSHClientProcess) :
    (PipeBase.close p).2 = none ∧
    PipeBase.close (PipeBase.close p).1 = ((PipeBase.close p).1, none) := by
  obtain ⟨⟨ws, wc⟩, ⟨rb, re⟩, pc⟩ := p
  simp [PipeBase.close, SSHClientProcess.closeProc]

/-- Claim C8 counterexample: after the transport delivers one byte, the
caller reads it, and the transport then delivers end-of-stream,
`read_done()` is already true although no read has returned an empty
result — so `read_done` can be true before the first read that observes
end-of-stream. -/
theorem read_done_true_without_empty_read :
    Sub.read_done
      ⟨⟨[], false⟩,
       (runRdTrace [RdEvent.feed [1], RdEvent.doRead (32 * 1024), RdEvent.feedEof]).1,
       false⟩ = true ∧
    ¬ ([] : List UInt8) ∈
      (runRdTrace [RdEvent.feed [1], RdEvent.doRead (32 * 1024), RdEvent.feedEof]).2 := by
  constructor
  · rfl
  · decide

/-- Claim C8 (amended): `read_done()` is true exactly when end-of-stream
has been reached on the output stream — end-of-stream received and all
buffered data consumed — equivalently, for any positive size, exactly
when a read would observe end-of-stream by returning an empty result;
it can however become true before any read has actually returned an
empty result. -/
theorem read_done_iff_empty_read (p : SSHClientProcess) (n : Nat) (h : 0 < n) :
    Sub.read p n = some ([], p) ↔ Sub.read_done p = true := by
  obtain ⟨w, ⟨buf, eofr⟩, pc⟩ := p
  unfold Sub.read Sub.read_done SSHReader.readBytes SSHReader.at_eof
  cases buf with
  | nil => cases eofr <;> simp
  | cons x xs =>
    cases n with
    | zero => exact absurd h (by omega)
    | succ m => simp

/-- Claim C8 witness: the amended equivalence at end-of-stream with an
empty buffer and size 1. -/
theorem read_done_iff_empty_read_witness :
    0 < 1 ∧
    (Sub.read ⟨⟨[], false⟩, ⟨[], true⟩, false⟩ 1 =
        some ([], ⟨⟨[], false⟩, ⟨[], true⟩, false⟩) ↔
      Sub.read_done ⟨⟨[], false⟩, ⟨[], true⟩, false⟩ = true) :=
  ⟨by decide, read_done_iff_empty_read ⟨⟨[], false⟩, ⟨[], true⟩, false⟩ 1 (by decide)⟩

/-- Claim C9: the layer applies no transformation to payload in either
direction — writing `b` places exactly `b`, unchanged, on the input
stream (and touches nothing else on the channel), and once the output
stream has end-of-stream, a large enough read returns exactly the bytes
the transport delivered, unchanged; a remote round-trip that delivers the
written bytes therefore yields them back unchanged. -/
theorem payload_opacity :
    (∀ (p : SSHClientProcess) (b : List UInt8),
      (Pub.write p b).stdin.sent = p.stdin.sent ++ b ∧
      (Pub.write p b).stdin.closing = p.stdin.closing ∧
      (Pub.write p b).stdout = p.stdout) ∧
    (∀ (p : SSHClientProcess) (n : Nat),
      p.stdout.eofReceived = true → p.stdout.buf.length ≤ n →
      (Sub.read p n).map Prod.fst = some p.stdout.buf) := by
  constructor
  · intro p b
    exact ⟨rfl, rfl, rfl⟩
  · intro p n he hl
    obtain ⟨w, ⟨buf, eofr⟩, pc⟩ := p
    unfold Sub.read SSHReader.readBytes
    simp only at he hl
    cases buf with
    | nil => simp [he]
    | cons x xs =>
      simp only [List.isEmpty_cons, Bool.false_eq_true, if_false]
      simp [List.take_of_length_le hl]

/-- Claim C9 witness: writing `[9]` appends exactly `[9]`, and reading a
stream that delivered `[1, 2]` returns exactly `[1, 2]`. -/
theorem payload_opacity_witness :
    ((Pub.write ⟨⟨[7], false⟩, ⟨[1, 2], true⟩, false⟩ [9]).stdin.sent =
        [7] ++ [9] ∧
      (Pub.write ⟨⟨[7], false⟩, ⟨[1, 2], true⟩, false⟩ [9]).stdin.closing = false ∧
      (Pub.write ⟨⟨[7], false⟩, ⟨[1, 2], true⟩, false⟩ [9]).stdout = ⟨[1, 2], true⟩) ∧
    (Sub.read ⟨⟨[7], false⟩, ⟨[1, 2], true⟩, false⟩ 5).map Prod.fst = some [1, 2] :=
  ⟨payload_opacity.1 ⟨⟨[7], false⟩, ⟨[1, 2], true⟩, false⟩ [9],
   payload_opacity.2 ⟨⟨[7], false⟩, ⟨[1, 2], true⟩, false⟩ 5 rfl (by decide)⟩

/-- Claim C10: when the session holds a connection, `close()` changes
only the connection object's own state — every other field is unchanged
and the handle is not reset to null — and a subsequent channel-creation
call (`pipe`, `pub` or `sub`) observes the non-null handle, does not
re-open the connection, and leaves the session state untouched. -/
theorem session_close_frame (st : PipeClientState) (c : SSHClientConnection)
    (h : st.client = some c) :
    PipeClient.close st = { st with client := some ⟨true⟩ } ∧
    (PipeClient.close st).client ≠ none ∧
    (∀ (topic : String) (pub replay : Bool),
      (PipeClient.pipeOp (PipeClient.close st) topic pub replay).1 =
        PipeClient.close st) ∧
    (∀ (topic : String) (block e pub : Bool) (tmo : String),
      (PipeClient.pubOp (PipeClient.close st) topic block e pub tmo).1 =
        PipeClient.close st) ∧
    (∀ (topic : String) (keep pub : Bool),
      (PipeClient.subOp (PipeClient.close st) topic keep pub).1 =
        PipeClient.close st) := by
  have hc : PipeClient.close st = { st with client := some ⟨true⟩ } := by
    simp [PipeClient.close, h]
  refine ⟨hc, ?_, fun topic pub replay => ?_, fun topic block e pub tmo => ?_,
    fun topic keep pub => ?_⟩ <;>
    rw [hc] <;>
    simp [PipeClient.pipeOp, PipeClient.pubOp, PipeClient.subOp]

/-- Claim C10 witness: the frame property at a concrete opened session. -/
theorem session_close_frame_witness :
    PipeClient.close examplePipeClientState =
      { examplePipeClientState with client := some ⟨true⟩ } ∧
    (PipeClient.close examplePipeClientState).client ≠ none ∧
    (∀ (topic : String) (pub replay : Bool),
      (PipeClient.pipeOp (PipeClient.close examplePipeClientState) topic pub replay).1 =
        PipeClient.close examplePipeClientState) ∧
    (∀ (topic : String) (block e pub : Bool) (tmo : String),
      (PipeClient.pubOp (PipeClient.close examplePipeClientState) topic block e pub tmo).1 =
        PipeClient.close examplePipeClientState) ∧
    (∀ (topic : String) (keep pub : Bool),
      (PipeClient.subOp (PipeClient.close examplePipeClientState) topic keep pub).1 =
        PipeClient.close examplePipeClientState) :=
  session_close_frame examplePipeClientState ⟨false⟩ rfl
